import Mathlib

/-!
# Verification of the `@gz/kv` client-side encryption subsystem

Shallow embedding of the encryption core of the `ghostzero/kv` key-value
client (`src/mod.ts`): the `KeyManager` class (key registry, active-key
pointer, only/except pattern lists, `shouldEncrypt` policy and
`matchKeyPath`), the envelope codec (`encryptData` / `decryptData`), the
key export/import helpers (`exportCryptoKey` / `importCryptoKey`) and the
read-side decryption logic of `connect().get` / `connect().list`.

Platform primitives used by the TypeScript code (Web Crypto AES-GCM,
`btoa`/`atob`, `TextEncoder`/`TextDecoder`, `JSON.stringify`/`JSON.parse`,
`String.fromCharCode`/`charCodeAt`) are not code of this repository; they
are modelled as an abstract `Platform` record of functions, and theorems
that depend on their documented behaviour take that behaviour as explicit
hypotheses at the values involved.  `CryptoKey` objects are modelled by
their raw key bytes (WebCrypto raw export/import of an AES key is the
identity on those bytes).  Randomness (`generateIV`) is modelled by
passing the generated IV as an explicit argument.
-/

namespace GzKv

/-- A structured store key: an ordered list of string segments
(`type KvKey = string[]` in `src/mod.ts`). -/
abbrev KvKey := List String

/-- JSON values, the plaintext payloads of the store
(the `JsonValue` type of `src/mod.ts`; numbers modelled as integers). -/
inductive Json where
  | str (s : String)
  | num (n : Int)
  | bool (b : Bool)
  | null
  | arr (xs : List Json)
  | obj (fields : List (String × Json))

/-- JSON Web Key record (`interface Jwk` in `src/mod.ts`): `kty` is the
constant `"oct"`, `k` the base64 raw key, `kid` the key identifier. -/
structure Jwk where
  kty : String
  k : String
  kid : String
deriving DecidableEq, Repr

/-- A `Jwk` together with its usable key (`interface JwtCryptoKey`);
the `CryptoKey` is modelled by its raw key bytes. -/
structure JwtCryptoKey where
  kty : String
  k : String
  kid : String
  key : List Nat
deriving DecidableEq, Repr

/-- The mutable state of a `KeyManager` instance (`class KeyManager` in
`src/mod.ts`): key list, active-key id (empty string means unset), and
the two pattern lists. -/
structure KeyManager where
  keys : List JwtCryptoKey := []
  activeKid : String := ""
  exceptKvKeys : List KvKey := []
  onlyKvKeys : List KvKey := []
deriving DecidableEq, Repr

/-- The error kinds raised by the encryption core (`throw new Error(...)`
sites of `src/mod.ts`). -/
inductive Err where
  | kidRequired
  | keyNotFound (kid : String)
  | activeKeyNotFound
  | decryptionFailed
  | noKeyManagerAvailable
  | notAnObject
deriving DecidableEq, Repr

/-- The exact message string of each error, as in the source. -/
def Err.message : Err → String
  | .kidRequired => "The `kid` property is required"
  | .keyNotFound kid => "Key with ID `" ++ kid ++ "` not found"
  | .activeKeyNotFound => "Active key not found"
  | .decryptionFailed => "Failed to decrypt value"
  | .noKeyManagerAvailable => "Encrypted value received but no key manager available"
  | .notAnObject => "Encrypted value received but value is not a object"

/-- Embeds `KeyManager.addKey` (`src/mod.ts` lines 505-523), for a key already in
`JwtCryptoKey` form: rejects an empty `kid`, appends the key, and sets
`activeKid` when `active` is true. -/
def KeyManager.addKey (km : KeyManager) (jwk : JwtCryptoKey) (active : Bool) :
    Except Err KeyManager :=
  if jwk.kid = "" then
    Except.error Err.kidRequired
  else
    let km' : KeyManager := { km with keys := km.keys ++ [jwk] }
    if active then
      Except.ok { km' with activeKid := jwk.kid }
    else
      Except.ok km'

/-- Embeds `KeyManager.getKey` (`src/mod.ts` lines 530-536): first key whose
`kid` matches, else the `KeyNotFound` error; returns the `CryptoKey`
(modelled as raw bytes). -/
def KeyManager.getKey (km : KeyManager) (kid : String) : Except Err (List Nat) :=
  match km.keys.find? (fun k => k.kid == kid) with
  | some k => Except.ok k.key
  | none => Except.error (Err.keyNotFound kid)

/-- Embeds `KeyManager.getActiveKey` (`src/mod.ts` lines 541-547): first key
whose `kid` equals `activeKid`, else the `Active key not found` error. -/
def KeyManager.getActiveKey (km : KeyManager) : Except Err JwtCryptoKey :=
  match km.keys.find? (fun k => k.kid == km.activeKid) with
  | some k => Except.ok k
  | none => Except.error Err.activeKeyNotFound

/-- Embeds `KeyManager.setActiveKey` (`src/mod.ts` lines 554-556). -/
def KeyManager.setActiveKey (km : KeyManager) (key : JwtCryptoKey) : KeyManager :=
  { km with activeKid := key.kid }

/-- Embeds `KeyManager.isAvailable` (`src/mod.ts` lines 561-563):
`keys.length > 0 && activeKid !== ""`. -/
def KeyManager.isAvailable (km : KeyManager) : Bool :=
  decide (km.keys.length > 0) && (km.activeKid != "")

/-- Embeds `KeyManager.getKeys` (`src/mod.ts` lines 568-570). -/
def KeyManager.getKeys (km : KeyManager) : List JwtCryptoKey :=
  km.keys

/-- Embeds `KeyManager.removeKey` (`src/mod.ts` lines 577-579):
`this.keys = this.keys.filter((key) => key.kid !== kid)`.
Note: the source does not touch `activeKid` here. -/
def KeyManager.removeKey (km : KeyManager) (kid : String) : KeyManager :=
  { km with keys := km.keys.filter (fun key => key.kid != kid) }

/-- Embeds `KeyManager.addExceptKvKeys` (`src/mod.ts` lines 607-609). -/
def KeyManager.addExceptKvKeys (km : KeyManager) (exceptKeys : List KvKey) : KeyManager :=
  { km with exceptKvKeys := km.exceptKvKeys ++ exceptKeys }

/-- Embeds `KeyManager.addOnlyKvKeys` (`src/mod.ts` lines 616-618). -/
def KeyManager.addOnlyKvKeys (km : KeyManager) (onlyKeys : List KvKey) : KeyManager :=
  { km with onlyKvKeys := km.onlyKvKeys ++ onlyKeys }

/-- Embeds `KeyManager.matchKeyPath` (`src/mod.ts` lines 653-659): false when the
lengths differ, otherwise every pattern segment is `"*"` or equals the key
segment at the same index (`pattern.every((part, index) => ...)`, rendered
over the positional pairing of the two equal-length lists). -/
def KeyManager.matchKeyPath (pattern key : KvKey) : Bool :=
  if pattern.length != key.length then
    false
  else
    (pattern.zip key).all (fun pk => pk.1 == "*" || pk.1 == pk.2)

/-- Embeds `KeyManager.shouldEncrypt` (`src/mod.ts` lines 625-645). -/
def KeyManager.shouldEncrypt (km : KeyManager) (key : List String) : Bool :=
  if !km.isAvailable then
    false
  else if decide (km.onlyKvKeys.length > 0)
      && !(km.onlyKvKeys.any (fun keyPath => KeyManager.matchKeyPath keyPath key)) then
    false
  else
    !(km.exceptKvKeys.any (fun keyPath => KeyManager.matchKeyPath keyPath key))

/-- The platform primitives the TypeScript source calls but does not
define: Web Crypto AES-GCM, base64, text and JSON codecs.  Theorems state
their documented round-trip behaviour as hypotheses where needed. -/
structure Platform where
  btoa : String → String
  atob : String → String
  fromCharCodes : List Nat → String
  toCharCodes : String → List Nat
  textEncode : String → List Nat
  textDecode : List Nat → String
  jsonStringify : Json → String
  jsonParse : String → Option Json
  jwkStringify : Jwk → String
  jwkParse : String → Option Jwk
  aeadEnc : List Nat → List Nat → List Nat → List Nat
  aeadDec : List Nat → List Nat → List Nat → Option (List Nat)

/-- The ciphertext envelope (`type EncryptedKvValue` in `src/mod.ts`). -/
structure EncryptedKvValue where
  ct : String
  iv : List Nat
  kid : String
deriving DecidableEq, Repr

/-- Embeds `encryptData` (`src/mod.ts` lines 300-317): take the active key,
JSON-serialize and UTF-8-encode the value, AES-GCM-encrypt it under the
fresh `iv` (passed explicitly, modelling `generateIV()`), base64 the
ciphertext, and return `{ct, iv, kid}`.  The `getActiveKey` failure
propagates as in the source. -/
def encryptData (p : Platform) (keyManager : KeyManager) (iv : List Nat)
    (data : Json) : Except Err EncryptedKvValue :=
  match keyManager.getActiveKey with
  | Except.error e => Except.error e
  | Except.ok jwk =>
    let encodedData := p.textEncode (p.jsonStringify data)
    let encrypted := p.aeadEnc jwk.key iv encodedData
    let ct := p.btoa (p.fromCharCodes encrypted)
    Except.ok { ct := ct, iv := iv, kid := jwk.kid }

/-- Embeds `decryptData` (`src/mod.ts` lines 326-347): look the `kid` up
(`KeyNotFound` propagates, it is raised outside the `try`), base64-decode
the ciphertext, AES-GCM-decrypt and JSON-parse; any failure inside the
`try` block becomes the single `Failed to decrypt value` error. -/
def decryptData (p : Platform) (keyManager : KeyManager)
    (data : EncryptedKvValue) : Except Err Json :=
  match keyManager.getKey data.kid with
  | Except.error e => Except.error e
  | Except.ok key =>
    let encryptedData := p.toCharCodes (p.atob data.ct)
    match p.aeadDec key data.iv encryptedData with
    | none => Except.error Err.decryptionFailed
    | some decrypted =>
      match p.jsonParse (p.textDecode decrypted) with
      | none => Except.error Err.decryptionFailed
      | some v => Except.ok v

/-- Embeds `exportCryptoKey` (`src/mod.ts` lines 371-382) with an explicit `kid`
(the source draws a random one only when none is given):
`btoa(JSON.stringify({kty: "oct", k: btoa(raw), kid}))`. -/
def exportCryptoKey (p : Platform) (key : List Nat) (kid : String) : String :=
  p.btoa (p.jwkStringify { kty := "oct", k := p.btoa (p.fromCharCodes key), kid := kid })

/-- Embeds `importCryptoKey` (`src/mod.ts` lines 391-406): parse the base64
JSON, decode the raw key bytes from `jwk.k`, and return the JWK fields
together with the imported key (raw import is the identity on bytes). -/
def importCryptoKey (p : Platform) (base64Key : String) : Option JwtCryptoKey :=
  match p.jwkParse (p.atob base64Key) with
  | none => none
  | some jwk =>
    let rawKey := p.toCharCodes (p.atob jwk.k)
    some { kty := jwk.kty, k := jwk.k, kid := jwk.kid, key := rawKey }

/-- A wire value whose JavaScript `typeof` is not `"object"`: string,
number or boolean. -/
inductive PrimVal where
  | pstr (s : String)
  | pnum (n : Int)
  | pbool (b : Bool)
deriving DecidableEq, Repr

/-- The value field of a record received from the transport, as the read
path of `src/mod.ts` distinguishes it: a primitive (`typeof !== "object"`)
or an envelope-shaped object. -/
inductive WireValue where
  | wprim (v : PrimVal)
  | wobj (env : EncryptedKvValue)
deriving DecidableEq, Repr

/-- A record as received from the transport (`interface Entry`). -/
structure WireEntry where
  key : KvKey
  value : WireValue
  version : Option Int
  encrypted : Bool
deriving DecidableEq, Repr

/-- The value returned to the caller: the raw wire value for plain
records, or the decrypted JSON value for encrypted ones. -/
inductive ReadValue where
  | raw (v : WireValue)
  | dec (v : Json)

/-- The entry returned to the caller by a read. -/
structure ReadEntry where
  key : KvKey
  value : ReadValue
  version : Option Int
  encrypted : Bool

/-- The decryption logic of `connect().get` (`src/mod.ts` lines 143-161):
when the record is flagged `encrypted`, the guard
`!_options.keyManager?.shouldEncrypt(key)` raises the
no-key-manager error (both when no key manager was supplied and when
`shouldEncrypt` is false); then a non-object value raises the
not-an-object error; otherwise the envelope goes to `decryptData`. -/
def readEntry (p : Platform) (keyManager : Option KeyManager)
    (e : WireEntry) : Except Err ReadEntry :=
  if e.encrypted then
    match keyManager with
    | none => Except.error Err.noKeyManagerAvailable
    | some km =>
      if !km.shouldEncrypt e.key then
        Except.error Err.noKeyManagerAvailable
      else
        match e.value with
        | WireValue.wprim _ => Except.error Err.notAnObject
        | WireValue.wobj env =>
          match decryptData p km env with
          | Except.error err => Except.error err
          | Except.ok v =>
            Except.ok { key := e.key, value := ReadValue.dec v,
                        version := e.version, encrypted := e.encrypted }
  else
    Except.ok { key := e.key, value := ReadValue.raw e.value,
                version := e.version, encrypted := e.encrypted }

/-- The per-entry decryption logic of `connect().list` (`src/mod.ts`
lines 189-218), which repeats the checks of `get` verbatim for each
entry of the response; the iterator stops at the first failing entry. -/
def listEntries (p : Platform) (keyManager : Option KeyManager) :
    List WireEntry → Except Err (List ReadEntry)
  | [] => Except.ok []
  | e :: es =>
    match readEntry p keyManager e with
    | Except.error err => Except.error err
    | Except.ok r =>
      match listEntries p keyManager es with
      | Except.error err => Except.error err
      | Except.ok rs => Except.ok (r :: rs)

/-! ## Concrete fixtures used by several theorems -/

/-- A key manager holding one active key and the only/except pattern
lists of the spec's concrete `shouldEncrypt` table. -/
def kmPolicy : KeyManager :=
  { keys := [{ kty := "oct", k := "", kid := "k1", key := [1] }],
    activeKid := "k1",
    exceptKvKeys := [["foo", "bar"], ["bar", "baz"]],
    onlyKvKeys := [["foo", "*"]] }

/-- Key A of the active-key scenarios. -/
def keyA : JwtCryptoKey := { kty := "oct", k := "", kid := "a", key := [0] }

/-- Key B of the active-key scenarios. -/
def keyB : JwtCryptoKey := { kty := "oct", k := "", kid := "b", key := [1] }

/-- The registry state reached by `addKey A true` then `addKey B true`
on a fresh `KeyManager`. -/
def kmAB : KeyManager :=
  { keys := [keyA, keyB], activeKid := "b" }

/-- A registry holding exactly one key material, registered as active
(the `registry{m}` of the round-trip property). -/
def registryOf (m : JwtCryptoKey) : KeyManager :=
  { keys := [m], activeKid := m.kid }

/-- A concrete `Platform` instance used to instantiate theorems whose
platform behaviour is hypothesised: identity base64, character-code
string/byte conversion, an identity cipher, and a JSON codec defined on
the values the witnesses use. -/
def pTriv : Platform :=
  { btoa := fun s => s,
    atob := fun s => s,
    fromCharCodes := fun bs => String.mk (bs.map Char.ofNat),
    toCharCodes := fun s => s.data.map Char.toNat,
    textEncode := fun s => s.data.map Char.toNat,
    textDecode := fun bs => String.mk (bs.map Char.ofNat),
    jsonStringify := fun v => match v with | Json.null => "null" | _ => "",
    jsonParse := fun s => if s == "null" then some Json.null else none,
    jwkStringify := fun j => j.kid,
    jwkParse := fun s => some { kty := "oct", k := "", kid := s },
    aeadEnc := fun _ _ data => data,
    aeadDec := fun _ _ ct => some ct }

/-- A platform whose authenticated decryption always rejects, modelling
decryption under a swapped key. -/
def pNoDec : Platform :=
  { pTriv with aeadDec := fun _ _ _ => none }

/-- A key material fixture. -/
def mW : JwtCryptoKey := { kty := "oct", k := "", kid := "k1", key := [9] }

/-- A key manager whose except-list vetoes the key `["foo", "bar"]`. -/
def kmExcept : KeyManager :=
  { keys := [mW], activeKid := "k1", exceptKvKeys := [["foo", "bar"]] }

/-- An encrypted wire record at the vetoed key `["foo", "bar"]`. -/
def eEnc : WireEntry :=
  { key := ["foo", "bar"], value := WireValue.wobj { ct := "", iv := [], kid := "k1" },
    version := none, encrypted := true }

/-! ## Theorems -/

/-- Lemma: `addKey` on a non-empty `kid` appends the key and updates the
active-key pointer exactly when `active` is true. -/
theorem addKey_ok (km : KeyManager) (jwk : JwtCryptoKey) (active : Bool)
    (h : jwk.kid ≠ "") :
    km.addKey jwk active =
      Except.ok { km with keys := km.keys ++ [jwk],
                          activeKid := if active then jwk.kid else km.activeKid } := by
  unfold KeyManager.addKey
  rw [if_neg h]
  cases active <;> simp

/-- Positional reading of `matchKeyPath`: equal lengths and, at every
index, wildcard or exact equality. -/
theorem matchKeyPath_iff (pattern key : KvKey) :
    KeyManager.matchKeyPath pattern key = true ↔
      pattern.length = key.length ∧
        ∀ (i : Nat) (hp : i < pattern.length) (hk : i < key.length),
          pattern.get ⟨i, hp⟩ = "*" ∨ pattern.get ⟨i, hp⟩ = key.get ⟨i, hk⟩ := by
  unfold KeyManager.matchKeyPath
  by_cases h : pattern.length = key.length
  · have hb : (pattern.length != key.length) = false := by simp [h]
    rw [hb, if_neg (by simp), List.all_eq_true]
    constructor
    · intro hall
      refine ⟨h, ?_⟩
      intro i hp hk
      have hz : i < (pattern.zip key).length := by
        rw [List.length_zip]
        exact lt_min hp hk
      have hmem : (pattern.zip key)[i] ∈ pattern.zip key := by
        apply List.getElem_mem
      have hval : (pattern.zip key)[i] = (pattern.get ⟨i, hp⟩, key.get ⟨i, hk⟩) := by
        simp [List.getElem_zip, List.get_eq_getElem]
      have hx := hall _ hmem
      rw [hval] at hx
      simpa using hx
    · rintro ⟨-, hforall⟩ x hx
      obtain ⟨i, hi, hxe⟩ := List.mem_iff_getElem.mp hx
      have hp : i < pattern.length := by
        rw [List.length_zip] at hi
        exact lt_of_lt_of_le hi (min_le_left _ _)
      have hk : i < key.length := by
        rw [List.length_zip] at hi
        exact lt_of_lt_of_le hi (min_le_right _ _)
      have hxz : x = (pattern.get ⟨i, hp⟩, key.get ⟨i, hk⟩) := by
        rw [← hxe]
        simp [List.getElem_zip, List.get_eq_getElem]
      subst hxz
      simpa using hforall i hp hk
  · have hb : (pattern.length != key.length) = true := by
      simpa using h
    simp [hb, h]

/-- C6: the pattern matcher returns false whenever the lengths differ and
otherwise is true iff every pattern segment is the wildcard `"*"` or
equals the key segment at the same position; concretely, `["foo","*"]`
matches `["foo","bar"]` and `["foo","anything"]` but not
`["foo","bar","baz"]` or `["other","bar"]`. -/
theorem matchKeyPath_correct :
    (∀ (pattern key : KvKey),
      KeyManager.matchKeyPath pattern key = true ↔
        pattern.length = key.length ∧
          ∀ (i : Nat) (hp : i < pattern.length) (hk : i < key.length),
            pattern.get ⟨i, hp⟩ = "*" ∨ pattern.get ⟨i, hp⟩ = key.get ⟨i, hk⟩) ∧
    KeyManager.matchKeyPath ["foo", "*"] ["foo", "bar"] = true ∧
    KeyManager.matchKeyPath ["foo", "*"] ["foo", "anything"] = true ∧
    KeyManager.matchKeyPath ["foo", "*"] ["foo", "bar", "baz"] = false ∧
    KeyManager.matchKeyPath ["foo", "*"] ["other", "bar"] = false :=
  ⟨matchKeyPath_iff, by decide, by decide, by decide, by decide⟩

/-- Rewrites `shouldEncrypt` as a single Boolean expression. -/
theorem shouldEncrypt_eq (km : KeyManager) (key : List String) :
    km.shouldEncrypt key =
      (km.isAvailable &&
        ((km.onlyKvKeys.length == 0) ||
          km.onlyKvKeys.any (fun kp => KeyManager.matchKeyPath kp key)) &&
        !(km.exceptKvKeys.any (fun kp => KeyManager.matchKeyPath kp key))) := by
  unfold KeyManager.shouldEncrypt
  by_cases hav : km.isAvailable = true
  · by_cases honly : km.onlyKvKeys = []
    · simp [hav, honly]
    · have hlen : decide (km.onlyKvKeys.length > 0) = true := by
        simp [List.length_pos, honly]
      have h0 : (km.onlyKvKeys.length == 0) = false := by
        simp [List.length_eq_zero, honly]
      by_cases hany : km.onlyKvKeys.any
          (fun kp => KeyManager.matchKeyPath kp key) = true
      · simp [hav, hlen, h0, hany]
      · have hany' : km.onlyKvKeys.any
            (fun kp => KeyManager.matchKeyPath kp key) = false := by
          simpa using hany
        simp [hav, hlen, h0, hany']
  · have hav' : km.isAvailable = false := by simpa using hav
    simp [hav']

/-- Declarative reading of the `shouldEncrypt` decision procedure. -/
theorem shouldEncrypt_iff (km : KeyManager) (key : List String) :
    km.shouldEncrypt key = true ↔
      km.isAvailable = true ∧
      (km.onlyKvKeys ≠ [] →
        ∃ kp ∈ km.onlyKvKeys, KeyManager.matchKeyPath kp key = true) ∧
      (∀ kp ∈ km.exceptKvKeys, KeyManager.matchKeyPath kp key = false) := by
  rw [shouldEncrypt_eq]
  constructor
  · intro h
    simp only [Bool.and_eq_true, Bool.or_eq_true, Bool.not_eq_true'] at h
    obtain ⟨⟨h1, h2⟩, h3⟩ := h
    refine ⟨h1, ?_, ?_⟩
    · intro hne
      rcases h2 with h2 | h2
      · exact absurd (by simpa [List.length_eq_zero] using h2) hne
      · simpa [List.any_eq_true] using h2
    · intro kp hkp
      have h3' : ∀ x ∈ km.exceptKvKeys,
          ¬(KeyManager.matchKeyPath x key = true) := by
        simpa [List.any_eq_false] using h3
      simpa using h3' kp hkp
  · rintro ⟨h1, h2, h3⟩
    simp only [Bool.and_eq_true, Bool.or_eq_true, Bool.not_eq_true']
    refine ⟨⟨h1, ?_⟩, ?_⟩
    · by_cases hne : km.onlyKvKeys = []
      · exact Or.inl (by simp [hne])
      · right
        have hex := h2 hne
        simpa [List.any_eq_true] using hex
    · rw [List.any_eq_false]
      intro x hx
      simpa using h3 x hx

/-- C1: `shouldEncrypt` follows the decision order availability check →
only-patterns gate → except-patterns veto, and on the spec's concrete
configuration (`only=[["foo","*"]]`, `except=[["foo","bar"],["bar","baz"]]`,
one active key) it returns exactly the values of the spec's table. -/
theorem shouldEncrypt_correct :
    (∀ (km : KeyManager) (key : List String),
      km.shouldEncrypt key = true ↔
        km.isAvailable = true ∧
        (km.onlyKvKeys ≠ [] →
          ∃ kp ∈ km.onlyKvKeys, KeyManager.matchKeyPath kp key = true) ∧
        (∀ kp ∈ km.exceptKvKeys, KeyManager.matchKeyPath kp key = false)) ∧
    kmPolicy.shouldEncrypt ["foo", "test"] = true ∧
    kmPolicy.shouldEncrypt ["foo", "qux"] = true ∧
    kmPolicy.shouldEncrypt ["foo", "bar"] = false ∧
    kmPolicy.shouldEncrypt ["bar", "baz"] = false ∧
    kmPolicy.shouldEncrypt ["bar", "qux"] = false ∧
    kmPolicy.shouldEncrypt ["baz", "qux"] = false :=
  ⟨shouldEncrypt_iff, by decide, by decide, by decide, by decide, by decide, by decide⟩

/-- C3 counterexample: after `addKey A true`, `addKey B true` and
`removeKey "b"` on a fresh manager, `isAvailable()` evaluates to `true`
(key A remains and `activeKid` is still `"b"`), whereas the claim asserts
it becomes `false`. -/
theorem removeKey_active_counterexample :
    ((({} : KeyManager).addKey keyA true).bind
        (fun km => km.addKey keyB true)).map
      (fun km => (km.removeKey "b").isAvailable) = Except.ok true := by
  rfl

/-- C3 amended: removing the active key id removes every entry with that
`kid` but leaves the active-key pointer unchanged (now dangling), so
`getActiveKey()` fails with `Active key not found`, while `isAvailable()`
still returns `true` whenever other keys remain. -/
theorem removeKey_active_amended (km : KeyManager) (kid : String)
    (hkid : kid ≠ "") (hact : km.activeKid = kid)
    (hrem : km.keys.filter (fun k => k.kid != kid) ≠ []) :
    (km.removeKey kid).activeKid = km.activeKid ∧
    (km.removeKey kid).getActiveKey = Except.error Err.activeKeyNotFound ∧
    (km.removeKey kid).isAvailable = true := by
  have hnone : (km.keys.filter (fun k => k.kid != kid)).find?
      (fun k => k.kid == kid) = none := by
    rw [List.find?_eq_none]
    intro x hx
    have hpx := List.of_mem_filter hx
    simpa using hpx
  refine ⟨rfl, ?_, ?_⟩
  · unfold KeyManager.getActiveKey
    simp only [KeyManager.removeKey, hact, hnone]
  · simp [KeyManager.isAvailable, KeyManager.removeKey, hact, hkid,
      List.length_pos, hrem]

/-- Witness for `removeKey_active_amended` at the concrete A/B scenario
of the claim. -/
theorem removeKey_active_amended_witness :
    ("b" : String) ≠ "" ∧ kmAB.activeKid = "b" ∧
    kmAB.keys.filter (fun k => k.kid != "b") ≠ [] ∧
    ((kmAB.removeKey "b").activeKid = kmAB.activeKid ∧
      (kmAB.removeKey "b").getActiveKey = Except.error Err.activeKeyNotFound ∧
      (kmAB.removeKey "b").isAvailable = true) :=
  ⟨by decide, by decide, by decide,
    removeKey_active_amended kmAB "b" (by decide) (by decide) (by decide)⟩

/-- C10: duplicate `kid`s are neither deduplicated nor rejected — adding
two keys with the same non-empty `kid` stores both (`getKeys()` grows by
one each time), `getKey(kid)` returns the first-added key with that
`kid`, and `removeKey(kid)` removes every entry whose `kid` matches. -/
theorem addKey_duplicate_kid (km : KeyManager) (jwk1 jwk2 : JwtCryptoKey)
    (a1 a2 : Bool) (kid : String)
    (hkid : kid ≠ "") (h1 : jwk1.kid = kid) (h2 : jwk2.kid = kid)
    (hfresh : ∀ k ∈ km.keys, k.kid ≠ kid) :
    ∃ km1 km2,
      km.addKey jwk1 a1 = Except.ok km1 ∧
      km1.addKey jwk2 a2 = Except.ok km2 ∧
      km1.getKeys.length = km.getKeys.length + 1 ∧
      km2.getKeys.length = km.getKeys.length + 2 ∧
      km2.getKey kid = Except.ok jwk1.key ∧
      (km2.removeKey kid).keys = km.keys := by
  have hn : km.keys.find? (fun k => k.kid == kid) = none := by
    rw [List.find?_eq_none]
    intro x hx
    simpa using hfresh x hx
  refine ⟨_, _, addKey_ok km jwk1 a1 (h1 ▸ hkid), addKey_ok _ jwk2 a2 (h2 ▸ hkid),
    ?_, ?_, ?_, ?_⟩
  · simp [KeyManager.getKeys]
  · simp [KeyManager.getKeys]
  · unfold KeyManager.getKey
    simp [List.find?_append, hn, h1]
  · have hself : km.keys.filter (fun k => k.kid != kid) = km.keys := by
      rw [List.filter_eq_self]
      intro x hx
      simpa using hfresh x hx
    simp [KeyManager.removeKey, List.filter_append, h1, h2, hself]

/-- Witness for `addKey_duplicate_kid`: two distinct key materials under
the shared kid `"k1"` added to an empty manager. -/
theorem addKey_duplicate_kid_witness :
    (("k1" : String) ≠ "" ∧
      ({ kty := "oct", k := "", kid := "k1", key := [1] } : JwtCryptoKey).kid = "k1" ∧
      ({ kty := "oct", k := "x", kid := "k1", key := [2] } : JwtCryptoKey).kid = "k1" ∧
      (∀ k ∈ ({} : KeyManager).keys, k.kid ≠ "k1")) ∧
    (∃ km1 km2,
      ({} : KeyManager).addKey { kty := "oct", k := "", kid := "k1", key := [1] } true =
        Except.ok km1 ∧
      km1.addKey { kty := "oct", k := "x", kid := "k1", key := [2] } false =
        Except.ok km2 ∧
      km1.getKeys.length = ({} : KeyManager).getKeys.length + 1 ∧
      km2.getKeys.length = ({} : KeyManager).getKeys.length + 2 ∧
      km2.getKey "k1" =
        Except.ok ({ kty := "oct", k := "", kid := "k1", key := [1] } : JwtCryptoKey).key ∧
      (km2.removeKey "k1").keys = ({} : KeyManager).keys) :=
  ⟨⟨by decide, by decide, by decide, by decide⟩,
    addKey_duplicate_kid {} _ _ true false "k1"
      (by decide) (by decide) (by decide) (by decide)⟩

/-- C4: round-trip — decrypting the envelope produced by encrypting a
value `v` under key material `m`, against a registry holding exactly `m`,
returns `v`.  The hypotheses state the documented behaviour of the
platform primitives (base64 and char-code round-trip, AES-GCM decryption
of its own ciphertext, JSON parse of its own serialization) at the values
this encryption produces. -/
theorem encrypt_decrypt_roundtrip (p : Platform) (m : JwtCryptoKey)
    (iv : List Nat) (v : Json)
    (hchars : p.toCharCodes (p.atob (p.btoa (p.fromCharCodes
        (p.aeadEnc m.key iv (p.textEncode (p.jsonStringify v)))))) =
      p.aeadEnc m.key iv (p.textEncode (p.jsonStringify v)))
    (haead : p.aeadDec m.key iv
        (p.aeadEnc m.key iv (p.textEncode (p.jsonStringify v))) =
      some (p.textEncode (p.jsonStringify v)))
    (hjson : p.jsonParse (p.textDecode (p.textEncode (p.jsonStringify v))) =
      some v) :
    (encryptData p (registryOf m) iv v).bind
      (fun env => decryptData p (registryOf m) env) = Except.ok v := by
  have hactive : (registryOf m).getActiveKey = Except.ok m := by
    unfold KeyManager.getActiveKey registryOf
    simp
  have hget : (registryOf m).getKey m.kid = Except.ok m.key := by
    unfold KeyManager.getKey registryOf
    simp
  unfold encryptData
  rw [hactive]
  unfold decryptData
  dsimp only [Except.bind]
  rw [hget]
  dsimp only
  rw [hchars, haead]
  dsimp only
  rw [hjson]

/-- Witness for `encrypt_decrypt_roundtrip`: the trivial platform, the
key fixture, a concrete IV and the value `null`. -/
theorem encrypt_decrypt_roundtrip_witness :
    (pTriv.toCharCodes (pTriv.atob (pTriv.btoa (pTriv.fromCharCodes
        (pTriv.aeadEnc mW.key [1, 2]
          (pTriv.textEncode (pTriv.jsonStringify Json.null)))))) =
      pTriv.aeadEnc mW.key [1, 2]
        (pTriv.textEncode (pTriv.jsonStringify Json.null))) ∧
    (pTriv.aeadDec mW.key [1, 2]
        (pTriv.aeadEnc mW.key [1, 2]
          (pTriv.textEncode (pTriv.jsonStringify Json.null))) =
      some (pTriv.textEncode (pTriv.jsonStringify Json.null))) ∧
    (pTriv.jsonParse (pTriv.textDecode
        (pTriv.textEncode (pTriv.jsonStringify Json.null))) =
      some Json.null) ∧
    (encryptData pTriv (registryOf mW) [1, 2] Json.null).bind
      (fun env => decryptData pTriv (registryOf mW) env) = Except.ok Json.null :=
  ⟨rfl, rfl, rfl,
    encrypt_decrypt_roundtrip pTriv mW [1, 2] Json.null rfl rfl rfl⟩

/-- C5: decrypting an envelope whose `kid` is absent from the registry
fails with the `KeyNotFound` error; decrypting when the registry holds a
(different) key under that `kid` but authenticated decryption rejects
fails with the `DecryptionFailed` error; the two error kinds are distinct
with distinct messages, and in both cases no value is returned. -/
theorem decrypt_error_kinds (p : Platform) (km km' : KeyManager)
    (env : EncryptedKvValue) (k' : List Nat)
    (h1 : ∀ k ∈ km.keys, k.kid ≠ env.kid)
    (h2 : km'.getKey env.kid = Except.ok k')
    (h3 : p.aeadDec k' env.iv (p.toCharCodes (p.atob env.ct)) = none) :
    decryptData p km env = Except.error (Err.keyNotFound env.kid) ∧
    decryptData p km' env = Except.error Err.decryptionFailed ∧
    Err.keyNotFound env.kid ≠ Err.decryptionFailed ∧
    Err.message (Err.keyNotFound env.kid) =
      "Key with ID `" ++ env.kid ++ "` not found" ∧
    Err.message Err.decryptionFailed = "Failed to decrypt value" := by
  refine ⟨?_, ?_, by simp, rfl, rfl⟩
  · have hn : km.keys.find? (fun k => k.kid == env.kid) = none := by
      rw [List.find?_eq_none]
      intro x hx
      simpa using h1 x hx
    unfold decryptData KeyManager.getKey
    rw [hn]
  · unfold decryptData
    rw [h2]
    dsimp only
    rw [h3]

/-- Witness for `decrypt_error_kinds`: an empty registry misses the kid;
the `pNoDec` platform rejects decryption under the same-kid registry. -/
theorem decrypt_error_kinds_witness :
    (∀ k ∈ ({} : KeyManager).keys,
      k.kid ≠ ({ ct := "c", iv := [2], kid := "k1" } : EncryptedKvValue).kid) ∧
    ((registryOf mW).getKey
        ({ ct := "c", iv := [2], kid := "k1" } : EncryptedKvValue).kid =
      Except.ok mW.key) ∧
    (pNoDec.aeadDec mW.key
        ({ ct := "c", iv := [2], kid := "k1" } : EncryptedKvValue).iv
        (pNoDec.toCharCodes (pNoDec.atob
          ({ ct := "c", iv := [2], kid := "k1" } : EncryptedKvValue).ct)) =
      none) ∧
    (decryptData pNoDec {} { ct := "c", iv := [2], kid := "k1" } =
      Except.error (Err.keyNotFound "k1") ∧
    decryptData pNoDec (registryOf mW) { ct := "c", iv := [2], kid := "k1" } =
      Except.error Err.decryptionFailed ∧
    Err.keyNotFound "k1" ≠ Err.decryptionFailed ∧
    Err.message (Err.keyNotFound "k1") = "Key with ID `" ++ "k1" ++ "` not found" ∧
    Err.message Err.decryptionFailed = "Failed to decrypt value") :=
  ⟨by decide, rfl, rfl,
    decrypt_error_kinds pNoDec {} (registryOf mW)
      { ct := "c", iv := [2], kid := "k1" } mW.key (by decide) rfl rfl⟩

/-- C7: export/import inverse — importing the exported representation of
raw key bytes under a non-empty `kid` yields the same `kid` and the same
raw key bytes, the `k` field being the base64 of the raw bytes (the
export is `base64(JSON{kty, k, kid})` by construction).  The hypotheses
state the platform codecs' round-trip behaviour at these values. -/
theorem import_export_inverse (p : Platform) (key : List Nat) (kid : String)
    (_hkid : kid ≠ "")
    (hb64 : p.atob (p.btoa (p.jwkStringify
        { kty := "oct", k := p.btoa (p.fromCharCodes key), kid := kid })) =
      p.jwkStringify { kty := "oct", k := p.btoa (p.fromCharCodes key), kid := kid })
    (hjwk : p.jwkParse (p.jwkStringify
        { kty := "oct", k := p.btoa (p.fromCharCodes key), kid := kid }) =
      some { kty := "oct", k := p.btoa (p.fromCharCodes key), kid := kid })
    (hraw : p.toCharCodes (p.atob (p.btoa (p.fromCharCodes key))) = key) :
    importCryptoKey p (exportCryptoKey p key kid) =
      some { kty := "oct", k := p.btoa (p.fromCharCodes key),
             kid := kid, key := key } := by
  unfold importCryptoKey exportCryptoKey
  rw [hb64, hjwk]
  dsimp only
  rw [hraw]

/-- Witness for `import_export_inverse`: the trivial platform, empty key
bytes and the kid `"k1"`. -/
theorem import_export_inverse_witness :
    (("k1" : String) ≠ "") ∧
    (pTriv.atob (pTriv.btoa (pTriv.jwkStringify
        { kty := "oct", k := pTriv.btoa (pTriv.fromCharCodes []), kid := "k1" })) =
      pTriv.jwkStringify
        { kty := "oct", k := pTriv.btoa (pTriv.fromCharCodes []), kid := "k1" }) ∧
    (pTriv.jwkParse (pTriv.jwkStringify
        { kty := "oct", k := pTriv.btoa (pTriv.fromCharCodes []), kid := "k1" }) =
      some { kty := "oct", k := pTriv.btoa (pTriv.fromCharCodes []), kid := "k1" }) ∧
    (pTriv.toCharCodes (pTriv.atob (pTriv.btoa (pTriv.fromCharCodes []))) = []) ∧
    importCryptoKey pTriv (exportCryptoKey pTriv [] "k1") =
      some { kty := "oct", k := pTriv.btoa (pTriv.fromCharCodes []),
             kid := "k1", key := [] } :=
  ⟨by decide, rfl, rfl, rfl,
    import_export_inverse pTriv [] "k1" (by decide) rfl rfl rfl⟩

/-- C2 (divergence witness): reading an encrypted record whose key is
vetoed by the except-list, with a key manager supplied and an active key
present, fails with the no-key-manager error — for every platform, so
decryption is never attempted — both in `get` and in `list`.  The claim
states such a read attempts decryption and that this error is reserved
for the no-key-manager case. -/
theorem read_encrypted_vetoed_key :
    kmExcept.isAvailable = true ∧
    kmExcept.shouldEncrypt eEnc.key = false ∧
    readEntry pTriv (some kmExcept) eEnc = Except.error Err.noKeyManagerAvailable ∧
    listEntries pTriv (some kmExcept) [eEnc] = Except.error Err.noKeyManagerAvailable :=
  ⟨by decide, by decide, rfl, rfl⟩

/-- C9: reading a record flagged `encrypted` whose value is a primitive
(JavaScript `typeof` other than `"object"`), with a key manager supplied
for which `shouldEncrypt(key)` is true, fails with the not-an-object
error — for every platform, so no decryption is attempted and no value
is returned — both in `get` and in `list`. -/
theorem read_encrypted_prim_value (p : Platform) (km : KeyManager)
    (e : WireEntry) (pv : PrimVal)
    (h1 : e.encrypted = true) (h2 : km.shouldEncrypt e.key = true)
    (h3 : e.value = WireValue.wprim pv) :
    readEntry p (some km) e = Except.error Err.notAnObject ∧
    listEntries p (some km) [e] = Except.error Err.notAnObject ∧
    Err.message Err.notAnObject =
      "Encrypted value received but value is not a object" := by
  have hr : readEntry p (some km) e = Except.error Err.notAnObject := by
    simp [readEntry, h1, h2, h3]
  refine ⟨hr, ?_, rfl⟩
  simp [listEntries, hr]

/-- Witness for `read_encrypted_prim_value`: an encrypted record carrying
the string `"x"` at a key the policy encrypts. -/
theorem read_encrypted_prim_value_witness :
    (({ key := ["users", "u1"], value := WireValue.wprim (PrimVal.pstr "x"),
        version := none, encrypted := true } : WireEntry).encrypted = true) ∧
    ((registryOf mW).shouldEncrypt
      ({ key := ["users", "u1"], value := WireValue.wprim (PrimVal.pstr "x"),
         version := none, encrypted := true } : WireEntry).key = true) ∧
    (({ key := ["users", "u1"], value := WireValue.wprim (PrimVal.pstr "x"),
        version := none, encrypted := true } : WireEntry).value =
      WireValue.wprim (PrimVal.pstr "x")) ∧
    (readEntry pTriv (some (registryOf mW))
        { key := ["users", "u1"], value := WireValue.wprim (PrimVal.pstr "x"),
          version := none, encrypted := true } =
      Except.error Err.notAnObject ∧
    listEntries pTriv (some (registryOf mW))
        [{ key := ["users", "u1"], value := WireValue.wprim (PrimVal.pstr "x"),
           version := none, encrypted := true }] =
      Except.error Err.notAnObject ∧
    Err.message Err.notAnObject =
      "Encrypted value received but value is not a object") :=
  ⟨by decide, by decide, by decide,
    read_encrypted_prim_value pTriv (registryOf mW)
      { key := ["users", "u1"], value := WireValue.wprim (PrimVal.pstr "x"),
        version := none, encrypted := true }
      (PrimVal.pstr "x") (by decide) (by decide) (by decide)⟩

end GzKv
